import Mathlib

/-!
Verification of the bulk MPR upload pipeline (`upload/tasks.py`).

The pipeline normalizes bank settlement exports into canonical transaction
records.  We shallowly embed the active (non-commented) code path:

* `clean_column_name`     — header normalization (regex bracket stripping,
  whitespace removal, removal of literal dots/underscores, final strip);
* `BANK_MAPPINGS` / `BANK_CODE_MAPPING` — the static schema registry;
* `convert_payable_to_float` / `convert_column_to_datetime` — column-wise
  type coercion with `errors='coerce'` semantics;
* `process_dataframe_chunk` — chunk orchestration: clean headers, resolve
  the schema entry, validate required headers, rename, coerce, derive the
  ICICI credit/debit label, then process rows;
* `process_transactions` — row projection into the fixed canonical record,
  NaT normalization, batch accumulation, storage submission with failure
  tallying, and publication of the success/failure counts.

Cells are modelled by `Value`: a pandas cell is a string, a number, the
missing-value marker NaN (`Value.null`, which `pd.to_numeric`'s coerce mode
also produces), the not-a-time sentinel (`Value.nat`), a parsed timestamp
(`Value.time`), or — reproducing a quirk of the source, which stores the
return value of the column converters (the whole DataFrame) into record
fields when the guarding column exists — a DataFrame object (`Value.frame`).
Storage submission is modelled by a boolean collaborator outcome: the code
catches every submission exception, so only success/failure is observable.
-/

/-- Association-list lookup with string keys, mirroring Python `dict.get`. -/
def alookup {β : Type} : List (String × β) → String → Option β
  | [], _ => none
  | (a, v) :: rest, k => if k = a then some v else alookup rest k

/-- A pandas cell value as observed by the pipeline. -/
inductive Value where
  | null : Value
  | str (s : String) : Value
  | num (q : ℚ) : Value
  | nat : Value
  | time (t : ℕ) : Value
  | frame : Value
deriving DecidableEq, Repr, Inhabited

/-- A decoded tabular chunk: column labels plus positional rows. -/
structure Chunk where
  cols : List String
  rows : List (List Value)
deriving DecidableEq, Repr

/-- Rectangularity: every row has exactly one cell per column, as pandas
guarantees for a decoded DataFrame. -/
def Chunk.Wf (ch : Chunk) : Prop := ∀ r ∈ ch.rows, r.length = ch.cols.length

/-- Cell access `row.get(c)`: the first column labelled `c`, `None` when the
label is absent. -/
def getCell (cols : List String) (row : List Value) (c : String) : Value :=
  match cols.findIdx? (fun x => x == c) with
  | some i => row.getD i Value.null
  | none => Value.null

/-- Replace the cell at one index, leaving other cells alone. -/
def modifyIdx (f : Value → Value) : ℕ → List Value → List Value
  | _, [] => []
  | 0, v :: rest => f v :: rest
  | n + 1, v :: rest => v :: modifyIdx f n rest

/-! ## Header normalizer (`clean_column_name`) -/

/-- ASCII whitespace recognized by Python `str.split()` / `str.strip()`. -/
def pyWhitespace (c : Char) : Bool :=
  c = ' ' || c = '\t' || c = '\n' || c = '\r' || c = '\x0b' || c = '\x0c'

/-- Characters erased by the whitespace and dot/underscore passes. -/
def ignoredChar (c : Char) : Bool := pyWhitespace c || c = '.' || c = '_'

/-- Scan for the closing bracket of `re` pattern `\[.*?\]`: the nearest `]`,
failing on a newline (regex `.` does not match newlines) or end of input.
Returns the characters after the `]`. -/
def chopBracket : List Char → Option (List Char)
  | [] => none
  | c :: rest =>
    if c = ']' then some rest
    else if c = '\n' then none
    else chopBracket rest

/-- Fueled worker for `removeBrackets`; fuel bounds the number of characters
still to examine, so `l.length` fuel always suffices. -/
def removeBracketsAux : ℕ → List Char → List Char
  | 0, l => l
  | _ + 1, [] => []
  | fuel + 1, c :: rest =>
    if c = '[' then
      match chopBracket rest with
      | some rest2 => removeBracketsAux fuel rest2
      | none => c :: removeBracketsAux fuel rest
    else c :: removeBracketsAux fuel rest

/-- `re.compile(r'\[.*?\]').sub('', ·)`: repeatedly delete the leftmost
non-greedy bracketed group. -/
def removeBrackets (l : List Char) : List Char := removeBracketsAux l.length l

/-- `''.join(s.split())`: delete every whitespace character. -/
def removeWhitespace (l : List Char) : List Char := l.filter (fun c => !pyWhitespace c)

/-- Delete every literal `.` and `_` character. -/
def removeDotUnderscore (l : List Char) : List Char :=
  l.filter (fun c => !(c = '.' || c = '_'))

/-- Python `str.strip()`: drop whitespace from both ends. -/
def stripEnds (l : List Char) : List Char :=
  ((l.dropWhile (fun c => pyWhitespace c)).reverse.dropWhile (fun c => pyWhitespace c)).reverse

/-- `clean_column_name`: strip bracketed groups, then all whitespace, then
literal dots and underscores, then trim the ends. -/
def clean_column_name (s : String) : String :=
  String.mk (stripEnds (removeDotUnderscore (removeWhitespace (removeBrackets s.toList))))

/-- One formatting-only edit between raw headers: inserting an erased
character (whitespace other than newline, `.`, `_`) anywhere, adding a
newline at either end, or appending a bracketed annotation `[s]` whose body
contains no `]` and no newline to a header with no unclosed `[`. -/
inductive HeaderStep : List Char → List Char → Prop where
  | insertIgnored (a b : List Char) (c : Char)
      (h1 : ignoredChar c = true) (h2 : c ≠ '\n') :
      HeaderStep (a ++ b) (a ++ c :: b)
  | prependNl (l : List Char) : HeaderStep l ('\n' :: l)
  | appendNl (l : List Char) : HeaderStep l (l ++ ['\n'])
  | bracketSuffix (l s : List Char)
      (hs : ∀ c ∈ s, c ≠ ']' ∧ c ≠ '\n')
      (hl : '[' ∉ removeBrackets l) :
      HeaderStep l (l ++ '[' :: (s ++ [']']))

/-- Equivalence closure of `HeaderStep` on character lists. -/
inductive HeaderEquivL : List Char → List Char → Prop where
  | ofStep {l1 l2 : List Char} : HeaderStep l1 l2 → HeaderEquivL l1 l2
  | refl (l : List Char) : HeaderEquivL l l
  | symm {l1 l2 : List Char} : HeaderEquivL l1 l2 → HeaderEquivL l2 l1
  | trans {l1 l2 l3 : List Char} :
      HeaderEquivL l1 l2 → HeaderEquivL l2 l3 → HeaderEquivL l1 l3

/-- Two raw headers differing only by formatting edits. -/
def HeaderEquiv (s1 s2 : String) : Prop := HeaderEquivL s1.toList s2.toList

/-! ## Type coercers -/

/-- Numeric value of a digit list, most significant first. -/
def digitsVal (l : List Char) : ℕ :=
  l.foldl (fun a c => a * 10 + (c.toNat - '0'.toNat)) 0

/-- Split a character list at the first `.`, keeping the remainder. -/
def splitFrac : List Char → List Char × Option (List Char)
  | [] => ([], none)
  | c :: rest =>
    if c = '.' then ([], some rest)
    else
      let p := splitFrac rest
      (c :: p.1, p.2)

/-- Parse an unsigned decimal numeral `digits[.digits]` with at least one
digit; a second `.` lands in the fractional part and fails the digit test. -/
def parseUnsignedDec (l : List Char) : Option ℚ :=
  let p := splitFrac l
  match p.2 with
  | none =>
    if p.1 ≠ [] ∧ p.1.all Char.isDigit then some ((digitsVal p.1 : ℚ)) else none
  | some frac =>
    if (p.1 ++ frac) ≠ [] ∧ p.1.all Char.isDigit ∧ frac.all Char.isDigit then
      some (mkRat (digitsVal (p.1 ++ frac)) (10 ^ frac.length))
    else none

/-- Optional sign in front of an unsigned decimal numeral. -/
def parseSigned : List Char → Option ℚ
  | '-' :: rest => (parseUnsignedDec rest).map (fun q => -q)
  | '+' :: rest => parseUnsignedDec rest
  | l => parseUnsignedDec l

/-- Core of `pd.to_numeric(·, errors='coerce')` on a single string: trim
surrounding whitespace and parse a signed decimal numeral; unparseable input
coerces to the missing marker (`none`). -/
def to_numeric (s : String) : Option ℚ := parseSigned (stripEnds s.toList)

/-- `str.replace(',', '')`: delete every comma. -/
def stripCommas (s : String) : String :=
  String.mk (s.toList.filter (fun c => !(c = ',')))

/-- Per-cell semantics of `convert_payable_to_float`: strip thousands
separators, then coerce to a number; failures and missing cells become the
missing marker, numbers pass through. -/
def payable_cell (v : Value) : Value :=
  match v with
  | Value.str s =>
    match to_numeric (stripCommas s) with
    | some q => Value.num q
    | none => Value.null
  | Value.num q => Value.num q
  | _ => Value.null

/-- Core of the permissive `pd.to_datetime` grammar: an ISO `YYYY-MM-DD`
date, encoded as an integer key; everything else fails to parse.  The claims
under verification do not depend on the breadth of the date grammar, only on
parse success versus the NaT sentinel. -/
def to_datetime_core (s : String) : Option ℕ :=
  match s.toList with
  | [y1, y2, y3, y4, '-', m1, m2, '-', d1, d2] =>
    if ([y1, y2, y3, y4, m1, m2, d1, d2].all Char.isDigit) ∧
        1 ≤ digitsVal [m1, m2] ∧ digitsVal [m1, m2] ≤ 12 ∧
        1 ≤ digitsVal [d1, d2] ∧ digitsVal [d1, d2] ≤ 31 then
      some (digitsVal [y1, y2, y3, y4] * 10000 + digitsVal [m1, m2] * 100 + digitsVal [d1, d2])
    else none
  | _ => none

/-- Per-cell semantics of `convert_column_to_datetime` with
`errors='coerce'`: strings parse to a timestamp or the NaT sentinel, missing
cells become NaT, timestamps pass through. -/
def datetime_cell (v : Value) : Value :=
  match v with
  | Value.str s =>
    match to_datetime_core s with
    | some t => Value.time t
    | none => Value.nat
  | Value.time t => Value.time t
  | _ => Value.nat

/-- `fillna(0)` on a cell: the missing marker becomes the number zero. -/
def fillna_zero (v : Value) : Value :=
  match v with
  | Value.null => Value.num 0
  | w => w

/-- The ICICI sign lambda: `'CREDIT' if x > 0 else 'DEBIT' if x < 0 else
None`. -/
def credit_debit_label (v : Value) : Value :=
  match v with
  | Value.num q => if 0 < q then Value.str "CREDIT" else if q < 0 then Value.str "DEBIT" else Value.null
  | _ => Value.null

/-- The derived label as a function of the raw amount cell: coerce, default
missing/unparseable amounts to zero, then classify the sign. -/
def icici_derived_label (v : Value) : Value :=
  credit_debit_label (fillna_zero (payable_cell v))

/-! ## Schema registry -/

/-- One registered schema: required raw headers and the normalized-header to
canonical-field mapping. -/
structure SchemaEntry where
  columns : List String
  column_mapping : List (String × String)
deriving DecidableEq, Repr

/-- `BANK_CODE_MAPPING`: the static bank to numeric code table. -/
def BANK_CODE_MAPPING : List (String × ℚ) :=
  [("hdfc", 101), ("icici", 102), ("karur_vysya", 40)]

/-- The `karur_vysya`/`booking` registry entry. -/
def karur_vysya_booking : SchemaEntry :=
  { columns := ["TXN DATE", "IRCTC ORDER NO.", "BANK BOOKING REF.NO.", "BOOKING AMOUNT", "CREDITED ON"]
    column_mapping :=
      [("IRCTCORDERNO", "Order_Id"),
       ("BANKBOOKINGREFNO", "Bank_Ref_id"),
       ("BOOKINGAMOUNT", "Payable_Merchant"),
       ("TXNDATE", "Transaction_Date"),
       ("CREDITEDON", "Settlement_Date")] }

/-- The `karur_vysya`/`refund` registry entry. -/
def karur_vysya_refund : SchemaEntry :=
  { columns := ["REFUND DATE", "IRCTC ORDER NO.", "BANK BOOKING REF.NO.", "BANK REFUND REF.NO.", "REFUND AMOUNT", "DEBITED ON"]
    column_mapping :=
      [("IRCTCORDERNO", "Order_Id"),
       ("REFUNDAMOUNT", "Payable_Merchant"),
       ("DEBITEDON", "Settlement_Date"),
       ("REFUNDDATE", "Transaction_Date"),
       ("BANKBOOKINGREFNO", "Bank_Ref_id"),
       ("BANKREFUNDREFNO", "Refund_Order_Id")] }

/-- The `icici`/`both` registry entry. -/
def icici_both : SchemaEntry :=
  { columns := ["POST DATE", "FT NO.", "SESSION ID [ASPD]", "ARN NO", "MID", "TRANSACTION DATE", "NET AMT", "CARD NUMBER", "CARD TYPE", "TID"]
    column_mapping :=
      [("TRANSACTIONDATE", "Transaction_Date"),
       ("SESSIONID", "Order_Id"),
       ("FTNO", "Transaction_Id"),
       ("ARNNO", "Arn_No"),
       ("MID", "MID"),
       ("POSTDATE", "Settlement_Date"),
       ("NETAMT", "Payable_Merchant"),
       ("CARDNUMBER", "Card_No"),
       ("CARDTYPE", "Card_type"),
       ("TID", "Tid")] }

/-- `BANK_MAPPINGS`: the full static registry keyed by bank then category. -/
def BANK_MAPPINGS : List (String × List (String × SchemaEntry)) :=
  [("karur_vysya", [("booking", karur_vysya_booking), ("refund", karur_vysya_refund)]),
   ("icici", [("both", icici_both)])]

/-- Schema resolution: exact `(bank, category)` entry if present, otherwise
the bank's `both` wildcard entry, otherwise no match. -/
def resolve_mapping (bank ttype : String) : Option SchemaEntry :=
  let bm := (alookup BANK_MAPPINGS bank).getD []
  match alookup bm ttype with
  | some e => some e
  | none => alookup bm "both"

/-- `banks_with_mid_override`: banks whose exports carry their own MID. -/
def banks_with_mid_override : List String := ["hdfc", "icici", "indus"]

/-- The enumerated transaction categories accepted by the row loop. -/
def allowed_transaction_types : List String := ["booking", "refund", "both"]

/-! ## Canonical record and row projection (`process_transactions`) -/

/-- The fixed, fully-enumerated canonical record built for every row; each
field is a nullable cell value, mirroring the `transaction_data` dict. -/
structure TransactionData where
  Transaction_type : Value
  Merchant_Name : Value
  MID : Value
  Transaction_Id : Value
  Order_Id : Value
  Transaction_Date : Value
  Settlement_Date : Value
  Refund_Request_Date : Value
  Gross_Amount : Value
  Aggregator_Com : Value
  Acquirer_Comm : Value
  Payable_Merchant : Value
  Payout_from_Nodal : Value
  BankName_Receive_Funds : Value
  Nodal_Account_No : Value
  Aggregator_Name : Value
  Acquirer_Name : Value
  Refund_Flag : Value
  Payments_Type : Value
  MOP_Type : Value
  Credit_Debit_Date : Value
  Bank_Name : Value
  Refund_Order_Id : Value
  Acq_Id : Value
  Approve_code : Value
  Arn_No : Value
  Card_No : Value
  Tid : Value
  Remarks : Value
  Bank_Ref_id : Value
  File_upload_Date : Value
  User_name : Value
  Recon_Status : Value
  Mpr_Summary_Trans : Value
  Merchant_code : Value
  Rec_Fmt : Value
  Card_type : Value
  Intl_Amount : Value
  Domestic_Amount : Value
  UDF1 : Value
  UDF2 : Value
  UDF3 : Value
  UDF4 : Value
  UDF5 : Value
  UDF6 : Value
  GST_Number : Value
  Credit_Debit_Amount : Value
deriving DecidableEq, Repr, Inhabited

/-- Build the `transaction_data` dict for one row.  Fields written as
`convert_...(df_chunk, c) if c in df_chunk else None` in the source receive
the converter's return value — the whole DataFrame — when the column exists
(`Value.frame`), and `None` otherwise; the in-loop column conversions touch
only columns never read back through `row.get`, so row cells are stable. -/
def project (cols : List String) (bank ttype : String) (bank_id : ℚ)
    (row : List Value) : TransactionData :=
  let g := fun c => getCell cols row c
  let colPresent := fun c => if c ∈ cols then Value.frame else Value.null
  { Transaction_type := Value.str ttype
    Merchant_Name := g "Merchant_Name"
    MID := if bank ∈ banks_with_mid_override then g "MID" else Value.num bank_id
    Transaction_Id := g "Transaction_Id"
    Order_Id := g "Order_Id"
    Transaction_Date := g "Transaction_Date"
    Settlement_Date := g "Settlement_Date"
    Refund_Request_Date := colPresent "Refund_Request_Date"
    Gross_Amount := colPresent "Gross_Amount"
    Aggregator_Com := colPresent "Aggregator_Com"
    Acquirer_Comm := colPresent "Acquirer_Comm"
    Payable_Merchant := g "Payable_Merchant"
    Payout_from_Nodal := colPresent "Payout_from_Nodal"
    BankName_Receive_Funds := g "BankName_Receive_Funds"
    Nodal_Account_No := g "Nodal_Account_No"
    Aggregator_Name := g "Aggregator_Name"
    Acquirer_Name := g "Acquirer_Name"
    Refund_Flag := g "Refund_Flag"
    Payments_Type := g "Payments_Type"
    MOP_Type := g "MOP_Type"
    Credit_Debit_Date := colPresent "Credit_Debit_Date"
    Bank_Name := Value.str bank
    Refund_Order_Id := g "Refund_Order_Id"
    Acq_Id := g "Acq_Id"
    Approve_code := g "Approve_code"
    Arn_No := g "Arn_No"
    Card_No := g "Card_No"
    Tid := g "Tid"
    Remarks := g "Remarks"
    Bank_Ref_id := g "Bank_Ref_id"
    File_upload_Date := colPresent "File_upload_Date"
    User_name := g "User_name"
    Recon_Status := g "Recon_Status"
    Mpr_Summary_Trans := g "Mpr_Summary_Trans"
    Merchant_code := g "Merchant_code"
    Rec_Fmt := g "Rec_Fmt"
    Card_type := g "Card_type"
    Intl_Amount := colPresent "Intl_Amount"
    Domestic_Amount := colPresent "Domestic_Amount"
    UDF1 := Value.null
    UDF2 := Value.null
    UDF3 := Value.null
    UDF4 := Value.null
    UDF5 := Value.null
    UDF6 := Value.null
    GST_Number := g "GST_Number"
    Credit_Debit_Amount := g "CREDIT_DEBIT_AMOUNT" }

/-- `handle_nat_in_datetime_fields`: replace the NaT sentinel by null in the
five canonical date fields before the record is emitted. -/
def handle_nat_in_datetime_fields (td : TransactionData) : TransactionData :=
  { td with
    Transaction_Date := if td.Transaction_Date = Value.nat then Value.null else td.Transaction_Date
    Settlement_Date := if td.Settlement_Date = Value.nat then Value.null else td.Settlement_Date
    Refund_Request_Date := if td.Refund_Request_Date = Value.nat then Value.null else td.Refund_Request_Date
    Credit_Debit_Date := if td.Credit_Debit_Date = Value.nat then Value.null else td.Credit_Debit_Date
    File_upload_Date := if td.File_upload_Date = Value.nat then Value.null else td.File_upload_Date }

/-- One iteration of the row loop: an unsupported transaction category is
counted failed and skipped; otherwise the projected, NaT-normalized record
joins the batch and is counted successful. -/
def process_row (cols : List String) (bank ttype : String) (bank_id : ℚ)
    (acc : List TransactionData × ℕ × ℕ) (row : List Value) :
    List TransactionData × ℕ × ℕ :=
  if ttype ∈ allowed_transaction_types then
    (acc.1 ++ [handle_nat_in_datetime_fields (project cols bank ttype bank_id row)],
     acc.2.1 + 1, acc.2.2)
  else
    (acc.1, acc.2.1, acc.2.2 + 1)

/-- Observable outcome of one chunk: the accumulated batch handed to
storage, the records durably committed (atomic: all or none), and the
`(total_successful, total_failed)` pair written to the result cache —
`none` when the code path returns without caching anything. -/
structure BatchOutcome where
  batch : List TransactionData
  committed : List TransactionData
  published : Option (ℕ × ℕ)
deriving DecidableEq, Repr

/-- `process_transactions`: resolve the bank code (unknown bank: return with
nothing published), run the row loop, submit a nonempty batch atomically —
a storage failure is caught and adds the whole batch size to the failure
count — then publish the counts. -/
def process_transactions (chunk : Chunk) (bank ttype : String)
    (storageOk : Bool) : BatchOutcome :=
  match alookup BANK_CODE_MAPPING bank with
  | none => ⟨[], [], none⟩
  | some bank_id =>
    let r := chunk.rows.foldl (process_row chunk.cols bank ttype bank_id) ([], 0, 0)
    let batch := r.1
    let f2 := if batch = [] then r.2.2 else if storageOk then r.2.2 else r.2.2 + batch.length
    let committed := if batch = [] then [] else if storageOk then batch else []
    ⟨batch, committed, some (r.2.1, f2)⟩

/-! ## Chunk orchestration (`process_dataframe_chunk`) -/

/-- `df.rename(columns=mapping)`: mapped labels are replaced, others kept. -/
def rename_columns (mapping : List (String × String)) (cols : List String) : List String :=
  cols.map (fun c => (alookup mapping c).getD c)

/-- Apply a cell function down one column (the first column with that label,
as a label lookup does); absent columns leave the chunk unchanged. -/
def applyColumn (c : String) (f : Value → Value) (ch : Chunk) : Chunk :=
  match ch.cols.findIdx? (fun x => x == c) with
  | some i => ⟨ch.cols, ch.rows.map (modifyIdx f i)⟩
  | none => ch

/-- `convert_column_to_datetime` on a chunk column. -/
def convert_column_to_datetime (ch : Chunk) (c : String) : Chunk :=
  applyColumn c datetime_cell ch

/-- `convert_payable_to_float` on a chunk column. -/
def convert_payable_to_float (ch : Chunk) (c : String) : Chunk :=
  applyColumn c payable_cell ch

/-- The ICICI `fillna(0)` pass on the payable column. -/
def fill_payable_zero (ch : Chunk) : Chunk :=
  applyColumn "Payable_Merchant" fillna_zero ch

/-- `df_chunk['CREDIT_DEBIT_AMOUNT'] = df_chunk['Payable_Merchant'].apply(...)`:
append the derived sign label column. -/
def add_credit_debit_column (ch : Chunk) : Chunk :=
  ⟨ch.cols ++ ["CREDIT_DEBIT_AMOUNT"],
   ch.rows.map (fun r => r ++ [credit_debit_label (getCell ch.cols r "Payable_Merchant")])⟩

/-- The two guarded date-coercion statements of `process_dataframe_chunk`. -/
def date_stage (ch2 : Chunk) : Chunk :=
  let ch3 := if ch2.cols.contains "Transaction_Date" then convert_column_to_datetime ch2 "Transaction_Date" else ch2
  if ch3.cols.contains "Settlement_Date" then convert_column_to_datetime ch3 "Settlement_Date" else ch3

/-- The guarded payable coercion with the nested ICICI fill/derive step. -/
def payable_stage (bank : String) (ch4 : Chunk) : Chunk :=
  if ch4.cols.contains "Payable_Merchant" then
    let chA := convert_payable_to_float ch4 "Payable_Merchant"
    if bank = "icici" then add_credit_debit_column (fill_payable_zero chA) else chA
  else ch4

/-- The post-validation transformations of `process_dataframe_chunk`:
rename to canonical labels, coerce the two date columns and the payable
column when present, and run the ICICI fill/derive step. -/
def transform_chunk (entry : SchemaEntry) (bank : String) (ch1 : Chunk) : Chunk :=
  payable_stage bank (date_stage ⟨rename_columns entry.column_mapping ch1.cols, ch1.rows⟩)

/-- `process_dataframe_chunk`: clean every header, resolve the schema entry
(no match: return with nothing published), check that every required header
is present (any missing: return with nothing published), then transform the
chunk and process its rows. -/
def process_dataframe_chunk (chunk : Chunk) (bank ttype : String)
    (storageOk : Bool) : BatchOutcome :=
  let ch1 : Chunk := ⟨chunk.cols.map clean_column_name, chunk.rows⟩
  match resolve_mapping bank ttype with
  | none => ⟨[], [], none⟩
  | some entry =>
    let expected := entry.columns.map clean_column_name
    if expected.all (fun c => ch1.cols.contains c) then
      process_transactions (transform_chunk entry bank ch1) bank ttype storageOk
    else ⟨[], [], none⟩

/-! ## Concrete inputs used by witnesses and counterexamples -/

/-- The filter core of `clean_column_name`: bracket removal followed by the
erasure of whitespace, dots, and underscores (the final strip is a no-op on
whitespace-free text, proved below). -/
def normalizeCore (l : List Char) : List Char :=
  (removeBrackets l).filter (fun c => !ignoredChar c)

/-- Canonical sourceless record fields read through the `c in df_chunk`
pattern: their guarding columns can never exist in a pipeline chunk. -/
def sourceless_columns : List String :=
  ["Refund_Request_Date", "Gross_Amount", "Aggregator_Com", "Acquirer_Comm",
   "Payout_from_Nodal", "Credit_Debit_Date", "File_upload_Date",
   "Intl_Amount", "Domestic_Amount"]

/-- Raw Karur Vysya booking headers exactly as registered. -/
def kv_cols : List String :=
  ["TXN DATE", "IRCTC ORDER NO.", "BANK BOOKING REF.NO.", "BOOKING AMOUNT", "CREDITED ON"]

/-- A well-formed Karur Vysya booking row. -/
def kv_row1 : List Value :=
  [Value.str "2024-01-02", Value.str "1001", Value.str "R1", Value.str "1,234.50", Value.str "2024-01-03"]

/-- A second well-formed Karur Vysya booking row. -/
def kv_row2 : List Value :=
  [Value.str "2024-01-05", Value.str "1002", Value.str "R2", Value.str "500", Value.str "2024-01-06"]

/-- A corrupted row: every cell, including the extra per-row category cell,
holds an unsupported garbage value. -/
def kv_row_bad : List Value :=
  [Value.str "not-a-date", Value.str "???", Value.str "???", Value.str "garbage", Value.str "???"]

/-- Scenario-B chunk: registered booking headers plus an extra per-row
category column; rows 1 and 3 are well-formed, row 2 is corrupted (its
category cell holds the unsupported value `cancellation`). -/
def scenarioB_chunk : Chunk :=
  ⟨kv_cols ++ ["TRANSACTION CATEGORY"],
   [kv_row1 ++ [Value.str "booking"],
    kv_row_bad ++ [Value.str "cancellation"],
    kv_row2 ++ [Value.str "booking"]]⟩

/-- A single-row chunk used to exercise a storage-submission failure. -/
def one_row_chunk : Chunk := ⟨kv_cols, [kv_row1]⟩

/-- An ICICI chunk whose headers miss most required columns. -/
def missing_header_chunk : Chunk :=
  ⟨["POST DATE", "FT NO."], [[Value.str "2024-01-02", Value.str "F1"]]⟩

/-- A Karur Vysya booking chunk with two exactly identical rows. -/
def duplicate_rows_chunk : Chunk := ⟨kv_cols, [kv_row1, kv_row1]⟩

/-- The first record emitted for `one_row_chunk`. -/
def one_row_record : TransactionData :=
  (process_dataframe_chunk one_row_chunk "karur_vysya" "booking" true).batch.headI

/-- An ICICI chunk with the registered headers and four rows whose net
amounts are negative, zero, positive, and unparseable. -/
def icici_chunk : Chunk :=
  ⟨["POST DATE", "FT NO.", "SESSION ID [ASPD]", "ARN NO", "MID", "TRANSACTION DATE", "NET AMT", "CARD NUMBER", "CARD TYPE", "TID"],
   [[Value.str "2024-01-02", Value.str "F1", Value.str "S1", Value.str "A1", Value.str "M77", Value.str "2024-01-01", Value.str "-50", Value.str "C1", Value.str "VISA", Value.str "T1"],
    [Value.str "2024-01-02", Value.str "F2", Value.str "S2", Value.str "A2", Value.str "M77", Value.str "2024-01-01", Value.str "0", Value.str "C2", Value.str "VISA", Value.str "T2"],
    [Value.str "2024-01-02", Value.str "F3", Value.str "S3", Value.str "A3", Value.str "M77", Value.str "2024-01-01", Value.str "50", Value.str "C3", Value.str "VISA", Value.str "T3"],
    [Value.str "2024-01-02", Value.str "F4", Value.str "S4", Value.str "A4", Value.str "M77", Value.str "2024-01-01", Value.str "oops", Value.str "C4", Value.str "VISA", Value.str "T4"]]⟩

/-! ## Lemmas: bracket removal and the normalization core -/

theorem chopBracket_length : ∀ l r : List Char, chopBracket l = some r → r.length < l.length := by
  intro l
  induction l with
  | nil => intro r h; simp [chopBracket] at h
  | cons c rest ih =>
    intro r h
    by_cases h1 : c = ']'
    · subst h1
      simp [chopBracket] at h
      subst h
      exact Nat.lt_succ_self _
    · by_cases h2 : c = '\n'
      · subst h2
        simp [chopBracket] at h
      · simp only [chopBracket, if_neg h1, if_neg h2] at h
        exact Nat.lt_trans (ih r h) (Nat.lt_succ_self _)

theorem removeBracketsAux_congr : ∀ f g : ℕ, ∀ l : List Char, l.length ≤ f → l.length ≤ g →
    removeBracketsAux f l = removeBracketsAux g l := by
  intro f
  induction f with
  | zero =>
    intro g l hf _
    have hnil : l = [] := List.eq_nil_of_length_eq_zero (Nat.le_zero.mp hf)
    subst hnil
    cases g <;> rfl
  | succ f ih =>
    intro g l hf hg
    cases l with
    | nil => cases g <;> rfl
    | cons c rest =>
      cases g with
      | zero => simp at hg
      | succ g =>
        have hrf : rest.length ≤ f := by simp at hf; omega
        have hrg : rest.length ≤ g := by simp at hg; omega
        by_cases hc : c = '['
        · subst hc
          cases hchop : chopBracket rest with
          | some rest2 =>
            have hl := chopBracket_length rest rest2 hchop
            simp only [removeBracketsAux, if_pos rfl, hchop]
            exact ih g rest2 (le_trans (Nat.le_of_lt hl) hrf) (le_trans (Nat.le_of_lt hl) hrg)
          | none =>
            simp only [removeBracketsAux, if_pos rfl, hchop]
            rw [ih g rest hrf hrg]
        · simp only [removeBracketsAux, if_neg hc]
          rw [ih g rest hrf hrg]

theorem removeBrackets_cons_ne (c : Char) (rest : List Char) (hc : c ≠ '[') :
    removeBrackets (c :: rest) = c :: removeBrackets rest := by
  simp only [removeBrackets, List.length_cons, removeBracketsAux, if_neg hc]

theorem removeBrackets_cons_some (rest rest2 : List Char) (h : chopBracket rest = some rest2) :
    removeBrackets ('[' :: rest) = removeBrackets rest2 := by
  have hl := chopBracket_length rest rest2 h
  simp only [removeBrackets, List.length_cons, removeBracketsAux, if_pos rfl, h]
  exact removeBracketsAux_congr rest.length rest2.length rest2 (Nat.le_of_lt hl) (Nat.le_refl _)

theorem removeBrackets_cons_none (rest : List Char) (h : chopBracket rest = none) :
    removeBrackets ('[' :: rest) = '[' :: removeBrackets rest := by
  simp only [removeBrackets, List.length_cons, removeBracketsAux, if_pos rfl, h, ite_self]

theorem ignored_ne_bracket (c : Char) (h : ignoredChar c = true) : c ≠ '[' ∧ c ≠ ']' := by
  constructor <;> intro hEq <;> subst hEq <;> exact absurd h (by decide)

theorem normalizeCore_cons (x : Char) (l : List Char) (hx : x ≠ '[') :
    normalizeCore (x :: l) =
      if ignoredChar x then normalizeCore l else x :: normalizeCore l := by
  unfold normalizeCore
  rw [removeBrackets_cons_ne x l hx]
  cases hig : ignoredChar x <;> simp [List.filter_cons, hig]

theorem normalizeCore_bracket_some (rest rest2 : List Char) (h : chopBracket rest = some rest2) :
    normalizeCore ('[' :: rest) = normalizeCore rest2 := by
  unfold normalizeCore
  rw [removeBrackets_cons_some _ _ h]

theorem normalizeCore_bracket_none (rest : List Char) (h : chopBracket rest = none) :
    normalizeCore ('[' :: rest) = '[' :: normalizeCore rest := by
  unfold normalizeCore
  rw [removeBrackets_cons_none _ h]
  simp [List.filter_cons, show ignoredChar '[' = false by decide]

theorem dropWhile_false (p : Char → Bool) : ∀ l : List Char, (∀ c ∈ l, p c = false) → l.dropWhile p = l := by
  intro l
  induction l with
  | nil => intro _; rfl
  | cons c rest ih =>
    intro h
    rw [List.dropWhile_cons, if_neg (by simp [h c (by simp)])]

theorem stripEnds_of_no_ws (l : List Char) (h : ∀ c ∈ l, pyWhitespace c = false) :
    stripEnds l = l := by
  unfold stripEnds
  rw [dropWhile_false _ l h, dropWhile_false _ l.reverse (fun c hc => h c (List.mem_reverse.mp hc)),
    List.reverse_reverse]

theorem clean_eq_normalizeCore (s : String) :
    clean_column_name s = String.mk (normalizeCore s.toList) := by
  unfold clean_column_name normalizeCore removeDotUnderscore removeWhitespace
  congr 1
  rw [List.filter_filter]
  have hp : (fun a : Char => (!(a = '.' || a = '_')) && !pyWhitespace a) = (fun a => !ignoredChar a) := by
    funext a
    cases hd : (decide (a = '.')) <;> cases hu : (decide (a = '_')) <;>
      cases hw : pyWhitespace a <;> simp [ignoredChar, hd, hu, hw]
  rw [hp]
  apply stripEnds_of_no_ws
  intro c hc
  have hmem := (List.mem_filter.mp hc).2
  simp only [ignoredChar, Bool.not_or, Bool.and_eq_true, Bool.not_eq_true'] at hmem
  exact hmem.1.1

theorem chopBracket_append_some : ∀ u r v : List Char, chopBracket u = some r →
    chopBracket (u ++ v) = some (r ++ v) := by
  intro u
  induction u with
  | nil => intro r v h; simp [chopBracket] at h
  | cons c u' ih =>
    intro r v h
    by_cases h1 : c = ']'
    · subst h1
      simp [chopBracket] at h
      subst h
      simp [chopBracket]
    · by_cases h2 : c = '\n'
      · subst h2
        simp [chopBracket] at h
      · simp only [chopBracket, if_neg h1, if_neg h2] at h
        simp only [List.cons_append, chopBracket, if_neg h1, if_neg h2]
        exact ih r v h

theorem chop_split : ∀ u v : List Char, ∀ c : Char, c ≠ ']' → c ≠ '\n' →
    (∃ r : List Char, chopBracket (u ++ c :: v) = some (r ++ c :: v) ∧
      chopBracket (u ++ v) = some (r ++ v) ∧ r.length < u.length) ∨
    (chopBracket (u ++ c :: v) = chopBracket v ∧ chopBracket (u ++ v) = chopBracket v) ∨
    (chopBracket (u ++ c :: v) = none ∧ chopBracket (u ++ v) = none) := by
  intro u
  induction u with
  | nil =>
    intro v c hc1 hc2
    right; left
    constructor
    · simp only [List.nil_append, chopBracket, if_neg hc1, if_neg hc2]
    · simp
  | cons y u' ih =>
    intro v c hc1 hc2
    by_cases hy1 : y = ']'
    · subst hy1
      left
      exact ⟨u', by simp [chopBracket], by simp [chopBracket], Nat.lt_succ_self _⟩
    · by_cases hy2 : y = '\n'
      · subst hy2
        right; right
        constructor <;> simp [chopBracket]
      · have e1 : chopBracket ((y :: u') ++ c :: v) = chopBracket (u' ++ c :: v) := by
          simp only [List.cons_append, chopBracket, if_neg hy1, if_neg hy2]
          rfl
        have e2 : chopBracket ((y :: u') ++ v) = chopBracket (u' ++ v) := by
          simp only [List.cons_append, chopBracket, if_neg hy1, if_neg hy2]
          rfl
        rcases ih v c hc1 hc2 with ⟨r, h1, h2, hl⟩ | ⟨h1, h2⟩ | ⟨h1, h2⟩
        · exact Or.inl ⟨r, e1.trans h1, e2.trans h2, Nat.lt_trans hl (Nat.lt_succ_self _)⟩
        · exact Or.inr (Or.inl ⟨e1.trans h1, e2.trans h2⟩)
        · exact Or.inr (Or.inr ⟨e1.trans h1, e2.trans h2⟩)

theorem normalizeCore_insert : ∀ n : ℕ, ∀ a b : List Char, ∀ c : Char, a.length ≤ n →
    ignoredChar c = true → c ≠ '\n' →
    normalizeCore (a ++ c :: b) = normalizeCore (a ++ b) := by
  intro n
  induction n with
  | zero =>
    intro a b c ha hig _
    have hnil : a = [] := List.eq_nil_of_length_eq_zero (Nat.le_zero.mp ha)
    subst hnil
    obtain ⟨hc1, _⟩ := ignored_ne_bracket c hig
    simp only [List.nil_append]
    rw [normalizeCore_cons c b hc1, if_pos hig]
  | succ n ih =>
    intro a b c ha hig hnl
    obtain ⟨hc1, hc2⟩ := ignored_ne_bracket c hig
    cases a with
    | nil =>
      simp only [List.nil_append]
      rw [normalizeCore_cons c b hc1, if_pos hig]
    | cons x a' =>
      have ha' : a'.length ≤ n := by simp at ha; omega
      by_cases hx : x = '['
      · subst hx
        rcases chop_split a' b c hc2 hnl with ⟨r, h1, h2, hl⟩ | ⟨h1, h2⟩ | ⟨h1, h2⟩
        · rw [List.cons_append, normalizeCore_bracket_some _ _ h1,
            List.cons_append, normalizeCore_bracket_some _ _ h2]
          exact ih r b c (Nat.le_of_lt (Nat.lt_of_lt_of_le hl ha')) hig hnl
        · cases hb : chopBracket b with
          | some r =>
            rw [List.cons_append, normalizeCore_bracket_some _ _ (h1.trans hb),
              List.cons_append, normalizeCore_bracket_some _ _ (h2.trans hb)]
          | none =>
            rw [List.cons_append, normalizeCore_bracket_none _ (h1.trans hb),
              List.cons_append, normalizeCore_bracket_none _ (h2.trans hb)]
            rw [ih a' b c ha' hig hnl]
        · rw [List.cons_append, normalizeCore_bracket_none _ h1,
            List.cons_append, normalizeCore_bracket_none _ h2]
          rw [ih a' b c ha' hig hnl]
      · rw [List.cons_append, normalizeCore_cons x _ hx, List.cons_append,
          normalizeCore_cons x _ hx]
        rw [ih a' b c ha' hig hnl]

theorem chopBracket_append_nl : ∀ u : List Char,
    chopBracket (u ++ ['\n']) = (chopBracket u).map (fun r => r ++ ['\n']) := by
  intro u
  induction u with
  | nil => simp [chopBracket]
  | cons c u' ih =>
    by_cases h1 : c = ']'
    · subst h1; simp [chopBracket]
    · by_cases h2 : c = '\n'
      · subst h2; simp [chopBracket]
      · simp only [List.cons_append, chopBracket, if_neg h1, if_neg h2]
        exact ih

theorem removeBrackets_append_nl : ∀ n : ℕ, ∀ l : List Char, l.length ≤ n →
    removeBrackets (l ++ ['\n']) = removeBrackets l ++ ['\n'] := by
  intro n
  induction n with
  | zero =>
    intro l h
    have hnil : l = [] := List.eq_nil_of_length_eq_zero (Nat.le_zero.mp h)
    subst hnil
    decide
  | succ n ih =>
    intro l h
    cases l with
    | nil => decide
    | cons x l' =>
      have hl' : l'.length ≤ n := by simp at h; omega
      by_cases hx : x = '['
      · subst hx
        cases hchop : chopBracket l' with
        | some r =>
          have hr := chopBracket_append_some l' r ['\n'] hchop
          rw [List.cons_append, removeBrackets_cons_some _ _ hr,
            removeBrackets_cons_some _ _ hchop]
          exact ih r (Nat.le_of_lt (Nat.lt_of_lt_of_le (chopBracket_length l' r hchop) hl'))
        | none =>
          have hr : chopBracket (l' ++ ['\n']) = none := by
            rw [chopBracket_append_nl l', hchop]; rfl
          rw [List.cons_append, removeBrackets_cons_none _ hr,
            removeBrackets_cons_none _ hchop, ih l' hl', List.cons_append]
      · rw [List.cons_append, removeBrackets_cons_ne x _ hx,
          removeBrackets_cons_ne x _ hx, ih l' hl', List.cons_append]

theorem normalizeCore_append_nl (l : List Char) :
    normalizeCore (l ++ ['\n']) = normalizeCore l := by
  unfold normalizeCore
  rw [removeBrackets_append_nl l.length l (Nat.le_refl _), List.filter_append]
  have h1 : (['\n'] : List Char).filter (fun c => !ignoredChar c) = [] := by decide
  rw [h1, List.append_nil]

theorem normalizeCore_prepend_nl (l : List Char) :
    normalizeCore ('\n' :: l) = normalizeCore l := by
  rw [normalizeCore_cons '\n' l (by decide), if_pos (by decide)]

theorem chopBracket_clean_suffix : ∀ s t : List Char, (∀ c ∈ s, c ≠ ']' ∧ c ≠ '\n') →
    chopBracket (s ++ ']' :: t) = some t := by
  intro s
  induction s with
  | nil => intro t _; simp [chopBracket]
  | cons c s' ih =>
    intro t h
    obtain ⟨hc1, hc2⟩ := h c (by simp)
    simp only [List.cons_append, chopBracket, if_neg hc1, if_neg hc2]
    exact ih t (fun d hd => h d (by simp [hd]))

theorem removeBrackets_bracket_suffix : ∀ n : ℕ, ∀ l s : List Char, l.length ≤ n →
    (∀ c ∈ s, c ≠ ']' ∧ c ≠ '\n') → '[' ∉ removeBrackets l →
    removeBrackets (l ++ '[' :: (s ++ [']'])) = removeBrackets l := by
  intro n
  induction n with
  | zero =>
    intro l s h hs _
    have hnil : l = [] := List.eq_nil_of_length_eq_zero (Nat.le_zero.mp h)
    subst hnil
    have hchop : chopBracket (s ++ [']']) = some [] := by
      have : s ++ [']'] = s ++ ']' :: ([] : List Char) := by simp
      rw [this, chopBracket_clean_suffix s [] hs]
    simp only [List.nil_append]
    rw [removeBrackets_cons_some _ _ hchop]
  | succ n ih =>
    intro l s h hs hmem
    cases l with
    | nil =>
      have hchop : chopBracket (s ++ [']']) = some [] := by
        have : s ++ [']'] = s ++ ']' :: ([] : List Char) := by simp
        rw [this, chopBracket_clean_suffix s [] hs]
      simp only [List.nil_append]
      rw [removeBrackets_cons_some _ _ hchop]
    | cons x l' =>
      have hl' : l'.length ≤ n := by simp at h; omega
      by_cases hx : x = '['
      · subst hx
        cases hchop : chopBracket l' with
        | some r =>
          have hr := chopBracket_append_some l' r ('[' :: (s ++ [']'])) hchop
          rw [List.cons_append, removeBrackets_cons_some _ _ hr,
            removeBrackets_cons_some _ _ hchop]
          rw [removeBrackets_cons_some _ _ hchop] at hmem
          exact ih r s (Nat.le_of_lt (Nat.lt_of_lt_of_le (chopBracket_length l' r hchop) hl')) hs hmem
        | none =>
          rw [removeBrackets_cons_none _ hchop] at hmem
          exact absurd (by simp : '[' ∈ '[' :: removeBrackets l') hmem
      · rw [removeBrackets_cons_ne x _ hx] at hmem
        have hmem' : '[' ∉ removeBrackets l' := fun hm => hmem (by simp [hm])
        rw [List.cons_append, removeBrackets_cons_ne x _ hx,
          removeBrackets_cons_ne x _ hx, ih l' s hl' hs hmem']

theorem normalizeCore_headerStep {l1 l2 : List Char} (h : HeaderStep l1 l2) :
    normalizeCore l1 = normalizeCore l2 := by
  cases h with
  | insertIgnored a b c h1 h2 =>
    exact (normalizeCore_insert a.length a b c (Nat.le_refl _) h1 h2).symm
  | prependNl => exact (normalizeCore_prepend_nl l1).symm
  | appendNl => exact (normalizeCore_append_nl l1).symm
  | bracketSuffix _ s hs hl =>
    unfold normalizeCore
    rw [removeBrackets_bracket_suffix l1.length l1 s (Nat.le_refl _) hs hl]

theorem headerEquivL_core {l1 l2 : List Char} (h : HeaderEquivL l1 l2) :
    normalizeCore l1 = normalizeCore l2 := by
  induction h with
  | ofStep hs => exact normalizeCore_headerStep hs
  | refl l => rfl
  | symm _ ih => exact ih.symm
  | trans _ _ ih1 ih2 => exact ih1.trans ih2

/-! ## Lemmas: the row loop and chunk processing -/

theorem foldl_process_row_allowed (cols : List String) (bank ttype : String) (bank_id : ℚ)
    (ht : ttype ∈ allowed_transaction_types) :
    ∀ (rows : List (List Value)) (b0 : List TransactionData) (s0 f0 : ℕ),
      rows.foldl (process_row cols bank ttype bank_id) (b0, s0, f0) =
        (b0 ++ rows.map (fun r => handle_nat_in_datetime_fields (project cols bank ttype bank_id r)),
         s0 + rows.length, f0) := by
  intro rows
  induction rows with
  | nil => intro b0 s0 f0; simp
  | cons r rows ih =>
    intro b0 s0 f0
    have hstep : process_row cols bank ttype bank_id (b0, s0, f0) r =
        (b0 ++ [handle_nat_in_datetime_fields (project cols bank ttype bank_id r)], s0 + 1, f0) := by
      simp [process_row, ht]
    rw [List.foldl_cons, hstep, ih, List.append_assoc]
    simp only [List.singleton_append, List.map_cons, List.length_cons]
    have harith : s0 + 1 + rows.length = s0 + (rows.length + 1) := by omega
    rw [harith]

theorem foldl_process_row_blocked (cols : List String) (bank ttype : String) (bank_id : ℚ)
    (ht : ttype ∉ allowed_transaction_types) :
    ∀ (rows : List (List Value)) (b0 : List TransactionData) (s0 f0 : ℕ),
      rows.foldl (process_row cols bank ttype bank_id) (b0, s0, f0) = (b0, s0, f0 + rows.length) := by
  intro rows
  induction rows with
  | nil => intro b0 s0 f0; simp
  | cons r rows ih =>
    intro b0 s0 f0
    have hstep : process_row cols bank ttype bank_id (b0, s0, f0) r = (b0, s0, f0 + 1) := by
      simp [process_row, ht]
    rw [List.foldl_cons, hstep, ih]
    simp only [List.length_cons]
    have harith : f0 + 1 + rows.length = f0 + (rows.length + 1) := by omega
    rw [harith]

theorem process_transactions_no_bank (chunk : Chunk) (bank ttype : String) (storageOk : Bool)
    (h : alookup BANK_CODE_MAPPING bank = none) :
    process_transactions chunk bank ttype storageOk = ⟨[], [], none⟩ := by
  simp [process_transactions, h]

theorem process_transactions_allowed (chunk : Chunk) (bank ttype : String) (storageOk : Bool)
    (bank_id : ℚ) (hb : alookup BANK_CODE_MAPPING bank = some bank_id)
    (ht : ttype ∈ allowed_transaction_types) :
    process_transactions chunk bank ttype storageOk =
      let batch := chunk.rows.map
        (fun r => handle_nat_in_datetime_fields (project chunk.cols bank ttype bank_id r))
      ⟨batch,
       if batch = [] then [] else if storageOk then batch else [],
       some (chunk.rows.length,
         if batch = [] then 0 else if storageOk then 0 else batch.length)⟩ := by
  simp only [process_transactions, hb]
  rw [foldl_process_row_allowed chunk.cols bank ttype bank_id ht chunk.rows [] 0 0]
  simp

theorem process_transactions_blocked (chunk : Chunk) (bank ttype : String) (storageOk : Bool)
    (bank_id : ℚ) (hb : alookup BANK_CODE_MAPPING bank = some bank_id)
    (ht : ttype ∉ allowed_transaction_types) :
    process_transactions chunk bank ttype storageOk = ⟨[], [], some (0, chunk.rows.length)⟩ := by
  simp only [process_transactions, hb]
  rw [foldl_process_row_blocked chunk.cols bank ttype bank_id ht chunk.rows [] 0 0]
  simp

theorem process_dataframe_chunk_no_entry (chunk : Chunk) (bank ttype : String) (storageOk : Bool)
    (h : resolve_mapping bank ttype = none) :
    process_dataframe_chunk chunk bank ttype storageOk = ⟨[], [], none⟩ := by
  simp [process_dataframe_chunk, h]

theorem process_dataframe_chunk_missing (chunk : Chunk) (bank ttype : String) (storageOk : Bool)
    (entry : SchemaEntry) (he : resolve_mapping bank ttype = some entry)
    (hm : ((entry.columns.map clean_column_name).all
      (fun c => (chunk.cols.map clean_column_name).contains c)) = false) :
    process_dataframe_chunk chunk bank ttype storageOk = ⟨[], [], none⟩ := by
  simp only [process_dataframe_chunk, he]
  split
  · next hcond => rw [hcond] at hm; cases hm
  · rfl

theorem process_dataframe_chunk_pass (chunk : Chunk) (bank ttype : String) (storageOk : Bool)
    (entry : SchemaEntry) (he : resolve_mapping bank ttype = some entry)
    (hp : ((entry.columns.map clean_column_name).all
      (fun c => (chunk.cols.map clean_column_name).contains c)) = true) :
    process_dataframe_chunk chunk bank ttype storageOk =
      process_transactions (transform_chunk entry bank ⟨chunk.cols.map clean_column_name, chunk.rows⟩)
        bank ttype storageOk := by
  simp only [process_dataframe_chunk, he]
  split
  · rfl
  · next hcond => exact absurd hp hcond

/-! ## Lemmas: columns, cells, and rectangularity through the transforms -/

theorem mem_stripEnds (c : Char) (l : List Char) (h : c ∈ stripEnds l) : c ∈ l := by
  unfold stripEnds at h
  rw [List.mem_reverse] at h
  have h1 := (List.dropWhile_sublist _).mem h
  rw [List.mem_reverse] at h1
  exact (List.dropWhile_sublist _).mem h1

theorem clean_no_underscore (s : String) : '_' ∉ (clean_column_name s).toList := by
  rw [clean_eq_normalizeCore]
  intro h
  have h2 : '_' ∈ normalizeCore s.toList := h
  have h3 := (List.mem_filter.mp h2).2
  exact absurd h3 (by decide)

theorem alookup_mem {β : Type} : ∀ (l : List (String × β)) (k : String) (v : β),
    alookup l k = some v → ∃ p ∈ l, p.1 = k ∧ p.2 = v := by
  intro l
  induction l with
  | nil => intro k v h; simp [alookup] at h
  | cons p rest ih =>
    intro k v h
    rw [alookup] at h
    split_ifs at h with hk
    · injection h with hv
      exact ⟨p, by simp, hk.symm, hv⟩
    · obtain ⟨q, hq, hq1, hq2⟩ := ih k v h
      exact ⟨q, by simp [hq], hq1, hq2⟩

theorem mem_rename_columns (m : List (String × String)) (cols : List String) (c : String)
    (h : c ∈ rename_columns m cols) :
    (∃ p ∈ m, p.2 = c) ∨ c ∈ cols := by
  unfold rename_columns at h
  obtain ⟨c0, hc0, hmap⟩ := List.mem_map.mp h
  cases halo : alookup m c0 with
  | none => right; rw [halo] at hmap; simp at hmap; exact hmap ▸ hc0
  | some v =>
    left
    rw [halo] at hmap
    simp at hmap
    obtain ⟨p, hp, _, hp2⟩ := alookup_mem m c0 v halo
    exact ⟨p, hp, hp2.trans hmap⟩

theorem findIdx?_not_mem (cols : List String) (c : String) (h : c ∉ cols) :
    cols.findIdx? (fun x => x == c) = none := by
  induction cols with
  | nil => rfl
  | cons a as ih =>
    have h1 : ¬ (a = c) := fun he => h (by simp [he])
    have h2 : c ∉ as := fun he => h (by simp [he])
    simp [List.findIdx?_cons, h1, ih h2]

theorem getCell_not_mem (cols : List String) (row : List Value) (c : String) (h : c ∉ cols) :
    getCell cols row c = Value.null := by
  unfold getCell
  rw [findIdx?_not_mem cols c h]

theorem findIdx?_some_lt (p : String → Bool) (l : List String) (i : ℕ)
    (h : l.findIdx? p = some i) : i < l.length :=
  (List.findIdx?_eq_some_iff_findIdx_eq.mp h).1

theorem findIdx?_append_left (l l' : List String) (p : String → Bool) (i : ℕ)
    (h : l.findIdx? p = some i) : (l ++ l').findIdx? p = some i := by
  rw [List.findIdx?_append, h]
  rfl

theorem modifyIdx_length (f : Value → Value) : ∀ (i : ℕ) (l : List Value),
    (modifyIdx f i l).length = l.length := by
  intro i l
  induction l generalizing i with
  | nil => cases i <;> rfl
  | cons v rest ih =>
    cases i with
    | zero => rfl
    | succ n => simp [modifyIdx, ih n]

theorem modifyIdx_getD_self (f : Value → Value) : ∀ (i : ℕ) (l : List Value), i < l.length →
    (modifyIdx f i l).getD i Value.null = f (l.getD i Value.null) := by
  intro i l
  induction l generalizing i with
  | nil => intro h; simp at h
  | cons v rest ih =>
    intro h
    cases i with
    | zero => rfl
    | succ n =>
      simp only [modifyIdx, List.getD_cons_succ]
      exact ih n (by simpa using h)

theorem getCell_modify_self (cols : List String) (row : List Value) (c : String)
    (f : Value → Value) (i : ℕ) (hf : cols.findIdx? (fun x => x == c) = some i)
    (hlen : i < row.length) :
    getCell cols (modifyIdx f i row) c = f (getCell cols row c) := by
  unfold getCell
  rw [hf]
  exact modifyIdx_getD_self f i row hlen

theorem getCell_append (cols : List String) (row : List Value) (c x : String) (v : Value)
    (i : ℕ) (hf : cols.findIdx? (fun y => y == c) = some i) (hlen : i < row.length) :
    getCell (cols ++ [x]) (row ++ [v]) c = getCell cols row c := by
  unfold getCell
  rw [findIdx?_append_left cols [x] _ i hf, hf]
  exact List.getD_append row [v] Value.null i hlen

theorem applyColumn_cols (c : String) (f : Value → Value) (ch : Chunk) :
    (applyColumn c f ch).cols = ch.cols := by
  unfold applyColumn
  split <;> rfl

theorem applyColumn_rows_length (c : String) (f : Value → Value) (ch : Chunk) :
    (applyColumn c f ch).rows.length = ch.rows.length := by
  unfold applyColumn
  split <;> simp

theorem applyColumn_wf (c : String) (f : Value → Value) (ch : Chunk) (h : ch.Wf) :
    (applyColumn c f ch).Wf := by
  unfold applyColumn
  split
  · intro r hr
    simp at hr
    obtain ⟨r0, hr0, rfl⟩ := hr
    simp [modifyIdx_length]
    exact h r0 hr0
  · exact h

theorem date_stage_cols (ch : Chunk) : (date_stage ch).cols = ch.cols := by
  unfold date_stage convert_column_to_datetime
  dsimp only
  split_ifs <;> simp [applyColumn_cols]

theorem date_stage_rows_length (ch : Chunk) : (date_stage ch).rows.length = ch.rows.length := by
  unfold date_stage convert_column_to_datetime
  dsimp only
  split_ifs <;> simp [applyColumn_rows_length]

theorem date_stage_wf (ch : Chunk) (h : ch.Wf) : (date_stage ch).Wf := by
  unfold date_stage convert_column_to_datetime
  dsimp only
  split_ifs <;>
    first
      | exact h
      | exact applyColumn_wf _ _ _ h
      | exact applyColumn_wf _ _ _ (applyColumn_wf _ _ _ h)

theorem add_credit_debit_cols (ch : Chunk) :
    (add_credit_debit_column ch).cols = ch.cols ++ ["CREDIT_DEBIT_AMOUNT"] := rfl

theorem add_credit_debit_wf (ch : Chunk) (h : ch.Wf) : (add_credit_debit_column ch).Wf := by
  intro r hr
  simp [add_credit_debit_column] at hr ⊢
  obtain ⟨r0, hr0, rfl⟩ := hr
  simp [h r0 hr0]

theorem payable_stage_cols (bank : String) (ch : Chunk) :
    (payable_stage bank ch).cols = ch.cols ∨
    (payable_stage bank ch).cols = ch.cols ++ ["CREDIT_DEBIT_AMOUNT"] := by
  unfold payable_stage convert_payable_to_float fill_payable_zero
  split_ifs with h1 h2
  · right; simp [add_credit_debit_cols, applyColumn_cols]
  · left; simp [applyColumn_cols]
  · left; rfl

theorem payable_stage_rows_length (bank : String) (ch : Chunk) :
    (payable_stage bank ch).rows.length = ch.rows.length := by
  unfold payable_stage convert_payable_to_float fill_payable_zero add_credit_debit_column
  split_ifs <;> simp [applyColumn_rows_length]

theorem transform_chunk_cols (entry : SchemaEntry) (bank : String) (ch1 : Chunk) :
    (transform_chunk entry bank ch1).cols = rename_columns entry.column_mapping ch1.cols ∨
    (transform_chunk entry bank ch1).cols =
      rename_columns entry.column_mapping ch1.cols ++ ["CREDIT_DEBIT_AMOUNT"] := by
  unfold transform_chunk
  rcases payable_stage_cols bank (date_stage ⟨rename_columns entry.column_mapping ch1.cols, ch1.rows⟩) with h | h
  · left; rw [h, date_stage_cols]
  · right; rw [h, date_stage_cols]

theorem transform_chunk_rows_length (entry : SchemaEntry) (bank : String) (ch1 : Chunk) :
    (transform_chunk entry bank ch1).rows.length = ch1.rows.length := by
  unfold transform_chunk
  rw [payable_stage_rows_length, date_stage_rows_length]

theorem applyColumn_spec (c : String) (f : Value → Value) (ch : Chunk) (i : ℕ)
    (hi : ch.cols.findIdx? (fun x => x == c) = some i) :
    applyColumn c f ch = ⟨ch.cols, ch.rows.map (modifyIdx f i)⟩ := by
  unfold applyColumn
  rw [hi]

theorem payable_cell_shape (v : Value) :
    payable_cell v = Value.null ∨ ∃ q, payable_cell v = Value.num q := by
  cases v with
  | str s =>
    cases h : to_numeric (stripCommas s) with
    | none => left; simp [payable_cell, h]
    | some q => right; exact ⟨q, by simp [payable_cell, h]⟩
  | num q => right; exact ⟨q, rfl⟩
  | null => left; rfl
  | nat => left; rfl
  | time t => left; rfl
  | frame => left; rfl

theorem fillna_zero_shape (v : Value)
    (h : v = Value.null ∨ ∃ q, v = Value.num q) :
    fillna_zero v = Value.null ∨ ∃ q, fillna_zero v = Value.num q := by
  rcases h with h | ⟨q, h⟩
  · subst h; right; exact ⟨0, rfl⟩
  · subst h; right; exact ⟨q, rfl⟩

theorem payable_stage_shape (bank : String) (ch : Chunk) (hwf : ch.Wf) :
    ∀ row ∈ (payable_stage bank ch).rows,
      getCell (payable_stage bank ch).cols row "Payable_Merchant" = Value.null ∨
      ∃ q, getCell (payable_stage bank ch).cols row "Payable_Merchant" = Value.num q := by
  by_cases h1 : ch.cols.contains "Payable_Merchant" = true
  · have hmem : "Payable_Merchant" ∈ ch.cols := by simpa using h1
    have hsome : (ch.cols.findIdx? (fun x => x == "Payable_Merchant")).isSome := by
      rw [List.findIdx?_isSome]
      simp
      exact hmem
    obtain ⟨i, hi⟩ := Option.isSome_iff_exists.mp hsome
    have hilt : i < ch.cols.length := findIdx?_some_lt _ _ _ hi
    unfold payable_stage convert_payable_to_float fill_payable_zero
    dsimp only
    rw [if_pos h1]
    by_cases h2 : bank = "icici"
    · rw [if_pos h2]
      rw [applyColumn_spec _ _ _ i hi]
      rw [applyColumn_spec "Payable_Merchant" fillna_zero
        ⟨ch.cols, ch.rows.map (modifyIdx payable_cell i)⟩ i hi]
      intro row hrow
      simp only [add_credit_debit_column] at hrow ⊢
      obtain ⟨r1, hr1, rfl⟩ := List.mem_map.mp hrow
      obtain ⟨rA, hrA, rfl⟩ := List.mem_map.mp hr1
      obtain ⟨r0, hr0, rfl⟩ := List.mem_map.mp hrA
      have hl0 : r0.length = ch.cols.length := hwf r0 hr0
      rw [getCell_append ch.cols _ _ _ _ i hi (by rw [modifyIdx_length, modifyIdx_length]; omega)]
      rw [getCell_modify_self ch.cols _ _ _ i hi (by rw [modifyIdx_length]; omega)]
      rw [getCell_modify_self ch.cols _ _ _ i hi (by omega)]
      exact fillna_zero_shape _ (payable_cell_shape _)
    · rw [if_neg h2]
      rw [applyColumn_spec _ _ _ i hi]
      intro row hrow
      simp only at hrow
      obtain ⟨r0, hr0, rfl⟩ := List.mem_map.mp hrow
      have hl0 : r0.length = ch.cols.length := hwf r0 hr0
      rw [getCell_modify_self ch.cols _ _ _ i hi (by omega)]
      exact payable_cell_shape _
  · unfold payable_stage
    rw [if_neg h1]
    intro row hrow
    left
    exact getCell_not_mem _ _ _ (by simpa using h1)

theorem transform_payable_shape (entry : SchemaEntry) (bank : String) (ch1 : Chunk)
    (hwf : ch1.Wf) :
    ∀ row ∈ (transform_chunk entry bank ch1).rows,
      getCell (transform_chunk entry bank ch1).cols row "Payable_Merchant" = Value.null ∨
      ∃ q, getCell (transform_chunk entry bank ch1).cols row "Payable_Merchant" = Value.num q := by
  unfold transform_chunk
  apply payable_stage_shape
  apply date_stage_wf
  intro r hr
  simp only [rename_columns, List.length_map]
  exact hwf r hr

theorem resolve_entry_cases (bank ttype : String) (e : SchemaEntry)
    (h : resolve_mapping bank ttype = some e) :
    e = karur_vysya_booking ∨ e = karur_vysya_refund ∨ e = icici_both := by
  unfold resolve_mapping BANK_MAPPINGS at h
  by_cases h1 : bank = "karur_vysya" <;> by_cases h2 : bank = "icici" <;>
    by_cases h3 : ttype = "booking" <;> by_cases h4 : ttype = "refund" <;>
    by_cases h5 : ttype = "both" <;>
    simp_all [alookup]

theorem sourceless_not_in_transform (entry : SchemaEntry) (bank ttype : String)
    (he : resolve_mapping bank ttype = some entry) (rawCols : List String)
    (rows : List (List Value)) (N : String) (hN : N ∈ sourceless_columns) :
    N ∉ (transform_chunk entry bank ⟨rawCols.map clean_column_name, rows⟩).cols := by
  intro hmem
  have hund : '_' ∈ N.toList := by fin_cases hN <;> decide
  have hcda : N ≠ "CREDIT_DEBIT_AMOUNT" := by fin_cases hN <;> decide
  have hrename : N ∉ rename_columns entry.column_mapping (rawCols.map clean_column_name) := by
    intro hmem2
    rcases mem_rename_columns _ _ _ hmem2 with ⟨p, hp, hp2⟩ | hin
    · rcases resolve_entry_cases bank ttype entry he with rfl | rfl | rfl <;>
        (fin_cases hp <;> simp only at hp2 <;> subst hp2 <;> exact absurd hN (by decide))
    · obtain ⟨s, _, hs⟩ := List.mem_map.mp hin
      rw [← hs] at hund
      exact clean_no_underscore s hund
  rcases transform_chunk_cols entry bank ⟨rawCols.map clean_column_name, rows⟩ with hc | hc
  · rw [hc] at hmem
    exact hrename hmem
  · rw [hc] at hmem
    rcases List.mem_append.mp hmem with hmem2 | hmem2
    · exact hrename hmem2
    · simp at hmem2
      exact hcda hmem2

theorem mem_batch_pt (ch : Chunk) (bank ttype : String) (storageOk : Bool) (td : TransactionData)
    (h : td ∈ (process_transactions ch bank ttype storageOk).batch) :
    ∃ bank_id row, alookup BANK_CODE_MAPPING bank = some bank_id ∧ row ∈ ch.rows ∧
      td = handle_nat_in_datetime_fields (project ch.cols bank ttype bank_id row) := by
  cases hb : alookup BANK_CODE_MAPPING bank with
  | none =>
    rw [process_transactions_no_bank ch bank ttype storageOk hb] at h
    simp at h
  | some bank_id =>
    by_cases ht : ttype ∈ allowed_transaction_types
    · rw [process_transactions_allowed ch bank ttype storageOk bank_id hb ht] at h
      simp only at h
      obtain ⟨row, hrow, hEq⟩ := List.mem_map.mp h
      exact ⟨bank_id, row, rfl, hrow, hEq.symm⟩
    · rw [process_transactions_blocked ch bank ttype storageOk bank_id hb ht] at h
      simp at h

theorem mem_batch_pdc (chunk : Chunk) (bank ttype : String) (storageOk : Bool)
    (td : TransactionData)
    (h : td ∈ (process_dataframe_chunk chunk bank ttype storageOk).batch) :
    ∃ entry bank_id row,
      resolve_mapping bank ttype = some entry ∧
      alookup BANK_CODE_MAPPING bank = some bank_id ∧
      row ∈ (transform_chunk entry bank ⟨chunk.cols.map clean_column_name, chunk.rows⟩).rows ∧
      td = handle_nat_in_datetime_fields
        (project (transform_chunk entry bank ⟨chunk.cols.map clean_column_name, chunk.rows⟩).cols
          bank ttype bank_id row) := by
  cases he : resolve_mapping bank ttype with
  | none =>
    rw [process_dataframe_chunk_no_entry _ _ _ _ he] at h
    simp at h
  | some entry =>
    cases hc : ((entry.columns.map clean_column_name).all
        (fun c => (chunk.cols.map clean_column_name).contains c)) with
    | false =>
      rw [process_dataframe_chunk_missing _ _ _ _ entry he hc] at h
      simp at h
    | true =>
      rw [process_dataframe_chunk_pass _ _ _ _ entry he hc] at h
      obtain ⟨bank_id, row, hb, hrow, hEq⟩ := mem_batch_pt _ _ _ _ _ h
      exact ⟨entry, bank_id, row, rfl, hb, hrow, hEq⟩

theorem value_ite_nat_ne (a : Value) : (if a = Value.nat then Value.null else a) ≠ Value.nat := by
  by_cases h : a = Value.nat <;> simp [h]

theorem handle_nat_project_fields (cols : List String) (bank ttype : String) (bank_id : ℚ)
    (row : List Value) :
    (handle_nat_in_datetime_fields (project cols bank ttype bank_id row)).UDF1 = Value.null ∧
    (handle_nat_in_datetime_fields (project cols bank ttype bank_id row)).UDF2 = Value.null ∧
    (handle_nat_in_datetime_fields (project cols bank ttype bank_id row)).UDF3 = Value.null ∧
    (handle_nat_in_datetime_fields (project cols bank ttype bank_id row)).UDF4 = Value.null ∧
    (handle_nat_in_datetime_fields (project cols bank ttype bank_id row)).UDF5 = Value.null ∧
    (handle_nat_in_datetime_fields (project cols bank ttype bank_id row)).UDF6 = Value.null ∧
    (handle_nat_in_datetime_fields (project cols bank ttype bank_id row)).Gross_Amount =
      (if "Gross_Amount" ∈ cols then Value.frame else Value.null) ∧
    (handle_nat_in_datetime_fields (project cols bank ttype bank_id row)).Aggregator_Com =
      (if "Aggregator_Com" ∈ cols then Value.frame else Value.null) ∧
    (handle_nat_in_datetime_fields (project cols bank ttype bank_id row)).Acquirer_Comm =
      (if "Acquirer_Comm" ∈ cols then Value.frame else Value.null) ∧
    (handle_nat_in_datetime_fields (project cols bank ttype bank_id row)).Payout_from_Nodal =
      (if "Payout_from_Nodal" ∈ cols then Value.frame else Value.null) ∧
    (handle_nat_in_datetime_fields (project cols bank ttype bank_id row)).Intl_Amount =
      (if "Intl_Amount" ∈ cols then Value.frame else Value.null) ∧
    (handle_nat_in_datetime_fields (project cols bank ttype bank_id row)).Domestic_Amount =
      (if "Domestic_Amount" ∈ cols then Value.frame else Value.null) ∧
    (handle_nat_in_datetime_fields (project cols bank ttype bank_id row)).Payable_Merchant =
      getCell cols row "Payable_Merchant" ∧
    (handle_nat_in_datetime_fields (project cols bank ttype bank_id row)).MID =
      (if bank ∈ banks_with_mid_override then getCell cols row "MID" else Value.num bank_id) ∧
    (handle_nat_in_datetime_fields (project cols bank ttype bank_id row)).Transaction_Date =
      (if getCell cols row "Transaction_Date" = Value.nat then Value.null
       else getCell cols row "Transaction_Date") ∧
    (handle_nat_in_datetime_fields (project cols bank ttype bank_id row)).Settlement_Date =
      (if getCell cols row "Settlement_Date" = Value.nat then Value.null
       else getCell cols row "Settlement_Date") ∧
    (handle_nat_in_datetime_fields (project cols bank ttype bank_id row)).Refund_Request_Date =
      (if (if "Refund_Request_Date" ∈ cols then Value.frame else Value.null) = Value.nat
       then Value.null else (if "Refund_Request_Date" ∈ cols then Value.frame else Value.null)) ∧
    (handle_nat_in_datetime_fields (project cols bank ttype bank_id row)).Credit_Debit_Date =
      (if (if "Credit_Debit_Date" ∈ cols then Value.frame else Value.null) = Value.nat
       then Value.null else (if "Credit_Debit_Date" ∈ cols then Value.frame else Value.null)) ∧
    (handle_nat_in_datetime_fields (project cols bank ttype bank_id row)).File_upload_Date =
      (if (if "File_upload_Date" ∈ cols then Value.frame else Value.null) = Value.nat
       then Value.null else (if "File_upload_Date" ∈ cols then Value.frame else Value.null)) := by
  repeat' apply And.intro
  all_goals rfl

/-! ## Claims -/

/-- C1 (amended): the transaction category is a chunk-level parameter, not a
per-row value, so rows cannot fail individually on it: a three-row chunk
publishes `(3, 0)` (category supported, storage ok — row content is never
validated, so even a corrupted row is projected and counted successful),
`(0, 3)` (unsupported chunk-level category — all rows fail), `(3, 3)`
(storage failure), or nothing at all (unknown bank code); the claimed
`(2, 1)` outcome is unreachable. -/
theorem c1_theorem (chunk : Chunk) (bank ttype : String) (storageOk : Bool)
    (h3 : chunk.rows.length = 3) :
    (process_transactions chunk bank ttype storageOk).published = none ∨
    (process_transactions chunk bank ttype storageOk).published = some (3, 0) ∨
    (process_transactions chunk bank ttype storageOk).published = some (0, 3) ∨
    (process_transactions chunk bank ttype storageOk).published = some (3, 3) := by
  cases hb : alookup BANK_CODE_MAPPING bank with
  | none =>
    left
    rw [process_transactions_no_bank _ _ _ _ hb]
  | some bank_id =>
    by_cases ht : ttype ∈ allowed_transaction_types
    · rw [process_transactions_allowed _ _ _ _ _ hb ht]
      simp only
      have hne : chunk.rows.map
          (fun r => handle_nat_in_datetime_fields (project chunk.cols bank ttype bank_id r)) ≠ [] := by
        intro hEq
        have hlen := congrArg List.length hEq
        simp [h3] at hlen
      cases storageOk with
      | true =>
        right; left
        simp [hne, h3]
      | false =>
        right; right; right
        simp [hne, h3]
    · rw [process_transactions_blocked _ _ _ _ _ hb ht]
      right; right; left
      simp [h3]

/-- C1 (witness): the amended disjunction evaluated on the concrete
scenario-B chunk. -/
theorem c1_witness :
    (process_transactions scenarioB_chunk "karur_vysya" "booking" true).published = none ∨
    (process_transactions scenarioB_chunk "karur_vysya" "booking" true).published = some (3, 0) ∨
    (process_transactions scenarioB_chunk "karur_vysya" "booking" true).published = some (0, 3) ∨
    (process_transactions scenarioB_chunk "karur_vysya" "booking" true).published = some (3, 3) :=
  c1_theorem scenarioB_chunk "karur_vysya" "booking" true (by decide)

/-- C1 (counterexample): the scenario-B chunk — three rows passing schema
resolution and required-header validation, rows 1 and 3 well-formed, row 2
fully corrupted including an unsupported value in its per-row category
cell — publishes `(3, 0)`, not the claimed `(2, 1)`: the corrupted row is
still projected and counted successful. -/
theorem c1_counterexample :
    (process_dataframe_chunk scenarioB_chunk "karur_vysya" "booking" true).published = some (3, 0) ∧
    some ((3 : ℕ), (0 : ℕ)) ≠ some ((2 : ℕ), (1 : ℕ)) := by
  constructor
  · decide
  · decide

/-- C2 (amended): a storage-submission failure is caught and every row of
the batch is added to the failure count, but the success count is not reset:
the published result for an `n`-row batch is `(n, n)` — rows are still
reported successful — and nothing is committed. -/
theorem c2_theorem (chunk : Chunk) (bank ttype : String) (bank_id : ℚ)
    (hb : alookup BANK_CODE_MAPPING bank = some bank_id)
    (ht : ttype ∈ allowed_transaction_types) (hne : chunk.rows ≠ []) :
    (process_transactions chunk bank ttype false).committed = [] ∧
    (process_transactions chunk bank ttype false).published =
      some (chunk.rows.length, chunk.rows.length) := by
  rw [process_transactions_allowed _ _ _ _ _ hb ht]
  simp only
  have hmapne : chunk.rows.map
      (fun r => handle_nat_in_datetime_fields (project chunk.cols bank ttype bank_id r)) ≠ [] := by
    simpa using hne
  constructor
  · simp [hmapne]
  · simp [hmapne]

/-- C2 (witness): the amended statement on a concrete one-row chunk with a
failing storage collaborator. -/
theorem c2_witness :
    (process_transactions one_row_chunk "karur_vysya" "booking" false).committed = [] ∧
    (process_transactions one_row_chunk "karur_vysya" "booking" false).published = some (1, 1) :=
  c2_theorem one_row_chunk "karur_vysya" "booking" 40 (by decide) (by decide) (by decide)

/-- C2 (counterexample): for a one-row batch and a failing storage
submission the published pair is `(1, 1)`: the failure count covers the
whole batch, but the result is not all-failed — one row is still reported
successful, contradicting the claimed `(0, n)` shape. -/
theorem c2_counterexample :
    (process_transactions one_row_chunk "karur_vysya" "booking" false).published = some (1, 1) ∧
    some ((1 : ℕ), (1 : ℕ)) ≠ some ((0 : ℕ), (1 : ℕ)) := by
  constructor
  · decide
  · decide

/-- C3 (amended): a chunk missing a required header after normalization is
rejected whole — no record is built, nothing reaches storage — but the
processor returns with *no* BatchResult at all: nothing is published (the
result slot is left untouched), rather than a `(0, 0)` result being
returned. -/
theorem c3_theorem (chunk : Chunk) (bank ttype : String) (storageOk : Bool)
    (entry : SchemaEntry) (he : resolve_mapping bank ttype = some entry)
    (hm : ((entry.columns.map clean_column_name).all
      (fun c => (chunk.cols.map clean_column_name).contains c)) = false) :
    process_dataframe_chunk chunk bank ttype storageOk = ⟨[], [], none⟩ :=
  process_dataframe_chunk_missing chunk bank ttype storageOk entry he hm

/-- C3 (witness): the amended statement on an ICICI chunk missing most
required headers. -/
theorem c3_witness :
    process_dataframe_chunk missing_header_chunk "icici" "both" true = ⟨[], [], none⟩ :=
  c3_theorem missing_header_chunk "icici" "both" true icici_both (by decide) (by decide)

/-- C3 (counterexample): on a chunk missing required headers nothing is
published — the outcome is `none`, not the claimed BatchResult `(0, 0)`. -/
theorem c3_counterexample :
    (process_dataframe_chunk missing_header_chunk "icici" "both" true).published = none ∧
    (none : Option (ℕ × ℕ)) ≠ some (0, 0) := by
  constructor
  · decide
  · decide

/-- C5: for every projected row, the canonical MID is the row's own MID cell
when the bank is in the fixed override allow-list, and the bank's fixed
numeric code otherwise; a bank absent from the code table makes the whole
chunk fail hard — `process_transactions` returns with no records and no
published result.  The batch is exactly the per-row projections, so these
equations describe every emitted record. -/
theorem c5_theorem (chunk : Chunk) (bank ttype : String) (storageOk : Bool) :
    (∀ bank_id : ℚ, ∀ row : List Value, alookup BANK_CODE_MAPPING bank = some bank_id →
      ((bank ∈ banks_with_mid_override →
        (handle_nat_in_datetime_fields (project chunk.cols bank ttype bank_id row)).MID =
          getCell chunk.cols row "MID") ∧
       (bank ∉ banks_with_mid_override →
        (handle_nat_in_datetime_fields (project chunk.cols bank ttype bank_id row)).MID =
          Value.num bank_id))) ∧
    (∀ bank_id : ℚ, alookup BANK_CODE_MAPPING bank = some bank_id →
      ttype ∈ allowed_transaction_types →
      (process_transactions chunk bank ttype storageOk).batch =
        chunk.rows.map
          (fun row => handle_nat_in_datetime_fields (project chunk.cols bank ttype bank_id row))) ∧
    (alookup BANK_CODE_MAPPING bank = none →
      process_transactions chunk bank ttype storageOk = ⟨[], [], none⟩) := by
  refine ⟨?_, ?_, ?_⟩
  · intro bank_id row _
    have hMID := (handle_nat_project_fields chunk.cols bank ttype bank_id row).2.2.2.2.2.2.2.2.2.2.2.2.2.1
    constructor
    · intro hov
      rw [hMID, if_pos hov]
    · intro hov
      rw [hMID, if_neg hov]
  · intro bank_id hb ht
    rw [process_transactions_allowed _ _ _ _ _ hb ht]
  · intro hb
    exact process_transactions_no_bank chunk bank ttype storageOk hb

/-- C5 (witness): the three branches at concrete inputs — hdfc (override
bank) takes the row MID, karur_vysya takes the fixed code 40, and a bank
missing from the code table yields no records and no result. -/
theorem c5_witness :
    (handle_nat_in_datetime_fields
      (project ["MID"] "hdfc" "booking" 101 [Value.str "M123"])).MID = Value.str "M123" ∧
    (handle_nat_in_datetime_fields
      (project ["MID"] "karur_vysya" "booking" 40 [Value.str "M123"])).MID = Value.num 40 ∧
    process_transactions one_row_chunk "sbi" "booking" true = ⟨[], [], none⟩ := by
  refine ⟨?_, ?_, ?_⟩
  · have h5 := c5_theorem ⟨["MID"], []⟩ "hdfc" "booking" true
    have h := (h5.1 101 [Value.str "M123"] (by decide)).1 (by decide)
    exact h.trans (by decide)
  · have h5 := c5_theorem ⟨["MID"], []⟩ "karur_vysya" "booking" true
    exact (h5.1 40 [Value.str "M123"] (by decide)).2 (by decide)
  · have h5 := c5_theorem one_row_chunk "sbi" "booking" true
    exact h5.2.2 (by decide)

/-- C6: the ICICI derived credit/debit label — computed from the coerced
amount with missing/unparseable amounts defaulted to zero for this step — is
CREDIT exactly for strictly positive amounts, DEBIT for strictly negative
amounts, and null when the amount is zero or was unparseable. -/
theorem c6_theorem :
    (∀ v : Value, ∀ q : ℚ, payable_cell v = Value.num q →
      ((0 < q → icici_derived_label v = Value.str "CREDIT") ∧
       (q < 0 → icici_derived_label v = Value.str "DEBIT") ∧
       (q = 0 → icici_derived_label v = Value.null))) ∧
    (∀ v : Value, payable_cell v = Value.null → icici_derived_label v = Value.null) := by
  constructor
  · intro v q hv
    refine ⟨?_, ?_, ?_⟩
    · intro hq
      simp [icici_derived_label, hv, fillna_zero, credit_debit_label, hq]
    · intro hq
      have hq2 : ¬ (0 < q) := not_lt.mpr (le_of_lt hq)
      simp [icici_derived_label, hv, fillna_zero, credit_debit_label, hq, hq2]
    · intro hq
      subst hq
      simp [icici_derived_label, hv, fillna_zero, credit_debit_label]
  · intro v hv
    simp [icici_derived_label, hv, fillna_zero, credit_debit_label]

/-- C6 (witness): amounts -50, 0, 50, and an unparseable string yield DEBIT,
null, CREDIT, and null. -/
theorem c6_witness :
    icici_derived_label (Value.str "-50") = Value.str "DEBIT" ∧
    icici_derived_label (Value.str "0") = Value.null ∧
    icici_derived_label (Value.str "50") = Value.str "CREDIT" ∧
    icici_derived_label (Value.str "abc") = Value.null := by
  refine ⟨?_, ?_, ?_, ?_⟩
  · exact (c6_theorem.1 (Value.str "-50") (-50) (by decide)).2.1 (by decide)
  · exact (c6_theorem.1 (Value.str "0") 0 (by decide)).2.2 (by decide)
  · exact (c6_theorem.1 (Value.str "50") 50 (by decide)).1 (by decide)
  · exact c6_theorem.2 (Value.str "abc") (by decide)

/-- C8: schema resolution uses the exact `(bank, category)` entry when
present, falls back to the bank's `both` wildcard entry otherwise, and
otherwise rejects the chunk: `process_dataframe_chunk` returns normally with
no records and nothing published — NotFound is not a fatal error. -/
theorem c8_theorem :
    (∀ bank ttype : String, ∀ e : SchemaEntry,
      alookup ((alookup BANK_MAPPINGS bank).getD []) ttype = some e →
      resolve_mapping bank ttype = some e) ∧
    (∀ bank ttype : String, ∀ e : SchemaEntry,
      alookup ((alookup BANK_MAPPINGS bank).getD []) ttype = none →
      alookup ((alookup BANK_MAPPINGS bank).getD []) "both" = some e →
      resolve_mapping bank ttype = some e) ∧
    (∀ bank ttype : String,
      alookup ((alookup BANK_MAPPINGS bank).getD []) ttype = none →
      alookup ((alookup BANK_MAPPINGS bank).getD []) "both" = none →
      resolve_mapping bank ttype = none ∧
      ∀ (chunk : Chunk) (storageOk : Bool),
        process_dataframe_chunk chunk bank ttype storageOk = ⟨[], [], none⟩) := by
  refine ⟨?_, ?_, ?_⟩
  · intro bank ttype e h
    simp [resolve_mapping, h]
  · intro bank ttype e h1 h2
    simp [resolve_mapping, h1, h2]
  · intro bank ttype h1 h2
    have hres : resolve_mapping bank ttype = none := by simp [resolve_mapping, h1, h2]
    exact ⟨hres, fun chunk storageOk =>
      process_dataframe_chunk_no_entry chunk bank ttype storageOk hres⟩

/-- C8 (witness): exact match for karur_vysya/refund, wildcard fallback for
icici/booking, and rejection with nothing published for hdfc/booking, which
has no registry entry at all. -/
theorem c8_witness :
    resolve_mapping "karur_vysya" "refund" = some karur_vysya_refund ∧
    resolve_mapping "icici" "booking" = some icici_both ∧
    process_dataframe_chunk one_row_chunk "hdfc" "booking" true = ⟨[], [], none⟩ := by
  refine ⟨?_, ?_, ?_⟩
  · exact c8_theorem.1 "karur_vysya" "refund" karur_vysya_refund (by decide)
  · exact c8_theorem.2.1 "icici" "booking" icici_both (by decide) (by decide)
  · exact (c8_theorem.2.2 "hdfc" "booking" (by decide) (by decide)).2 one_row_chunk true

/-- C9: the amount coercer strips thousands separators and parses the rest
as a decimal — `"1,234.50"` becomes 1234.50 — while `""`, `"abc"`, and a
missing cell all coerce to null; the coercer is a total function, so no
error ever reaches the caller.  Stated both per cell and on a whole column
as `convert_payable_to_float` applies it. -/
theorem c9_theorem :
    payable_cell (Value.str "1,234.50") = Value.num (mkRat 2469 2) ∧
    payable_cell (Value.str "") = Value.null ∧
    payable_cell (Value.str "abc") = Value.null ∧
    payable_cell Value.null = Value.null ∧
    convert_payable_to_float
        ⟨["Payable_Merchant"],
         [[Value.str "1,234.50"], [Value.str ""], [Value.str "abc"], [Value.null]]⟩
        "Payable_Merchant" =
      ⟨["Payable_Merchant"],
       [[Value.num (mkRat 2469 2)], [Value.null], [Value.null], [Value.null]]⟩ := by
  refine ⟨?_, ?_, ?_, ?_, ?_⟩ <;> decide

/-- C10: for a chunk that passes schema resolution, header validation, and
the bank-code lookup, with a supported category, every row — with no
content validation and no deduplication, so exact duplicates included — is
projected, appended to the batch and counted successful: the batch size and
the published success count both equal the chunk's row count, and with a
healthy storage collaborator the whole batch is committed. -/
theorem c10_theorem (chunk : Chunk) (bank ttype : String) (entry : SchemaEntry) (bank_id : ℚ)
    (he : resolve_mapping bank ttype = some entry)
    (hp : ((entry.columns.map clean_column_name).all
      (fun c => (chunk.cols.map clean_column_name).contains c)) = true)
    (hb : alookup BANK_CODE_MAPPING bank = some bank_id)
    (ht : ttype ∈ allowed_transaction_types) :
    (process_dataframe_chunk chunk bank ttype true).batch.length = chunk.rows.length ∧
    (process_dataframe_chunk chunk bank ttype true).committed =
      (process_dataframe_chunk chunk bank ttype true).batch ∧
    (process_dataframe_chunk chunk bank ttype true).published =
      some (chunk.rows.length, 0) := by
  rw [process_dataframe_chunk_pass _ _ _ _ entry he hp]
  rw [process_transactions_allowed _ _ _ _ _ hb ht]
  simp only
  have hlen : (transform_chunk entry bank
      ⟨chunk.cols.map clean_column_name, chunk.rows⟩).rows.length = chunk.rows.length :=
    transform_chunk_rows_length entry bank ⟨chunk.cols.map clean_column_name, chunk.rows⟩
  refine ⟨?_, ?_, ?_⟩
  · simp [hlen]
  · by_cases hb2 : (transform_chunk entry bank
        ⟨chunk.cols.map clean_column_name, chunk.rows⟩).rows.map
        (fun r => handle_nat_in_datetime_fields (project (transform_chunk entry bank
          ⟨chunk.cols.map clean_column_name, chunk.rows⟩).cols bank ttype bank_id r)) = [] <;>
      simp [hb2]
  · by_cases hb2 : (transform_chunk entry bank
        ⟨chunk.cols.map clean_column_name, chunk.rows⟩).rows.map
        (fun r => handle_nat_in_datetime_fields (project (transform_chunk entry bank
          ⟨chunk.cols.map clean_column_name, chunk.rows⟩).cols bank ttype bank_id r)) = [] <;>
      simp [hb2, hlen]

/-- C10 (witness): a Karur Vysya booking chunk with two exactly identical
rows: both duplicates are projected and committed and the published result
is `(2, 0)`. -/
theorem c10_witness :
    (process_dataframe_chunk duplicate_rows_chunk "karur_vysya" "booking" true).batch.length = 2 ∧
    (process_dataframe_chunk duplicate_rows_chunk "karur_vysya" "booking" true).committed =
      (process_dataframe_chunk duplicate_rows_chunk "karur_vysya" "booking" true).batch ∧
    (process_dataframe_chunk duplicate_rows_chunk "karur_vysya" "booking" true).published =
      some (2, 0) := by
  have h := c10_theorem duplicate_rows_chunk "karur_vysya" "booking" karur_vysya_booking 40
    (by decide) (by decide) (by decide) (by decide)
  exact ⟨h.1, h.2.1, h.2.2⟩

/-- C4: every record built by the pipeline carries the full fixed canonical
field set (the `TransactionData` structure, all fields always present); the
six reserved UDF slots are explicitly null; every field read through the
`c in df_chunk` guard is null, because its guarding column cannot exist in a
pipeline chunk — in particular all monetary fields other than the payable
amount; the payable amount is a nullable number; and after
`handle_nat_in_datetime_fields` no canonical date field carries the
not-a-time sentinel. -/
theorem c4_theorem (chunk : Chunk) (bank ttype : String) (storageOk : Bool)
    (td : TransactionData) (hwf : chunk.Wf)
    (hmem : td ∈ (process_dataframe_chunk chunk bank ttype storageOk).batch) :
    (td.UDF1 = Value.null ∧ td.UDF2 = Value.null ∧ td.UDF3 = Value.null ∧
     td.UDF4 = Value.null ∧ td.UDF5 = Value.null ∧ td.UDF6 = Value.null) ∧
    (td.Refund_Request_Date = Value.null ∧ td.Credit_Debit_Date = Value.null ∧
     td.File_upload_Date = Value.null) ∧
    (td.Gross_Amount = Value.null ∧ td.Aggregator_Com = Value.null ∧
     td.Acquirer_Comm = Value.null ∧ td.Payout_from_Nodal = Value.null ∧
     td.Intl_Amount = Value.null ∧ td.Domestic_Amount = Value.null) ∧
    (td.Payable_Merchant = Value.null ∨ ∃ q, td.Payable_Merchant = Value.num q) ∧
    (td.Transaction_Date ≠ Value.nat ∧ td.Settlement_Date ≠ Value.nat ∧
     td.Refund_Request_Date ≠ Value.nat ∧ td.Credit_Debit_Date ≠ Value.nat ∧
     td.File_upload_Date ≠ Value.nat) := by
  obtain ⟨entry, bank_id, row, he, hb, hrow, rfl⟩ :=
    mem_batch_pdc chunk bank ttype storageOk td hmem
  have hwf1 : (Chunk.mk (chunk.cols.map clean_column_name) chunk.rows).Wf := by
    intro r hr
    simp only [List.length_map]
    exact hwf r hr
  have habs : ∀ N ∈ sourceless_columns,
      N ∉ (transform_chunk entry bank ⟨chunk.cols.map clean_column_name, chunk.rows⟩).cols :=
    fun N hN => sourceless_not_in_transform entry bank ttype he chunk.cols chunk.rows N hN
  have hpay := transform_payable_shape entry bank _ hwf1 row hrow
  obtain ⟨hU1, hU2, hU3, hU4, hU5, hU6, hG, hAg, hAc, hPo, hIn, hDo, hPM, _, hTD, hSD,
    hRRD, hCDD, hFUD⟩ := handle_nat_project_fields
      (transform_chunk entry bank ⟨chunk.cols.map clean_column_name, chunk.rows⟩).cols
      bank ttype bank_id row
  refine ⟨⟨hU1, hU2, hU3, hU4, hU5, hU6⟩, ⟨?_, ?_, ?_⟩, ⟨?_, ?_, ?_, ?_, ?_, ?_⟩, ?_,
    ⟨?_, ?_, ?_, ?_, ?_⟩⟩
  · rw [hRRD, if_neg (habs "Refund_Request_Date" (by decide))]
    decide
  · rw [hCDD, if_neg (habs "Credit_Debit_Date" (by decide))]
    decide
  · rw [hFUD, if_neg (habs "File_upload_Date" (by decide))]
    decide
  · rw [hG, if_neg (habs "Gross_Amount" (by decide))]
  · rw [hAg, if_neg (habs "Aggregator_Com" (by decide))]
  · rw [hAc, if_neg (habs "Acquirer_Comm" (by decide))]
  · rw [hPo, if_neg (habs "Payout_from_Nodal" (by decide))]
  · rw [hIn, if_neg (habs "Intl_Amount" (by decide))]
  · rw [hDo, if_neg (habs "Domestic_Amount" (by decide))]
  · rw [hPM]
    exact hpay
  · rw [hTD]
    exact value_ite_nat_ne _
  · rw [hSD]
    exact value_ite_nat_ne _
  · rw [hRRD]
    exact value_ite_nat_ne _
  · rw [hCDD]
    exact value_ite_nat_ne _
  · rw [hFUD]
    exact value_ite_nat_ne _

/-- C4 (witness): the record emitted for a concrete one-row Karur Vysya
booking chunk, with the invariants evaluated on it. -/
theorem c4_witness :
    one_row_chunk.Wf ∧
    one_row_record ∈ (process_dataframe_chunk one_row_chunk "karur_vysya" "booking" true).batch ∧
    one_row_record.UDF1 = Value.null ∧
    (one_row_record.Payable_Merchant = Value.null ∨
      ∃ q, one_row_record.Payable_Merchant = Value.num q) ∧
    one_row_record.Transaction_Date ≠ Value.nat := by
  have hwf : one_row_chunk.Wf := by
    unfold Chunk.Wf
    decide
  have hmem : one_row_record ∈
      (process_dataframe_chunk one_row_chunk "karur_vysya" "booking" true).batch := by
    unfold one_row_record
    decide
  have h := c4_theorem one_row_chunk "karur_vysya" "booking" true one_row_record hwf hmem
  exact ⟨hwf, hmem, h.1.1, h.2.2.2.1, h.2.2.2.2.1⟩

/-- C7 (amended): header normalization is a pure total function computed as
bracket removal, then whitespace removal, then dot/underscore removal, then
an end-trim; two raw headers related by `HeaderEquiv` — differing only by
surrounding whitespace, by internal insertions of non-newline whitespace or
`.` or `_`, or by appended well-formed bracketed annotations (`[s]` with `s`
free of `]` and of newlines, appended to a header with no unclosed `[`) —
normalize to the same key.  Without the unclosed-bracket proviso the claimed
equivalence is false, see the counterexample. -/
theorem c7_theorem :
    (∀ s1 s2 : String, HeaderEquiv s1 s2 → clean_column_name s1 = clean_column_name s2) ∧
    (∀ s : String, clean_column_name s =
      String.mk (stripEnds (removeDotUnderscore (removeWhitespace (removeBrackets s.toList))))) := by
  constructor
  · intro s1 s2 h
    rw [clean_eq_normalizeCore, clean_eq_normalizeCore]
    exact congrArg String.mk (headerEquivL_core h)
  · intro s
    rfl

/-- C7 (witness): `"TXN DATE"` and `"TXN.DATE"` differ only by an internal
space versus an internal dot and normalize to the same key. -/
theorem c7_witness : clean_column_name "TXN DATE" = clean_column_name "TXN.DATE" := by
  apply c7_theorem.1
  unfold HeaderEquiv
  have e1 : "TXN DATE".toList = ['T', 'X', 'N'] ++ ' ' :: ['D', 'A', 'T', 'E'] := by decide
  have e2 : "TXN.DATE".toList = ['T', 'X', 'N'] ++ '.' :: ['D', 'A', 'T', 'E'] := by decide
  rw [e1, e2]
  exact HeaderEquivL.trans
    (HeaderEquivL.symm (HeaderEquivL.ofStep
      (HeaderStep.insertIgnored ['T', 'X', 'N'] ['D', 'A', 'T', 'E'] ' ' (by decide) (by decide))))
    (HeaderEquivL.ofStep
      (HeaderStep.insertIgnored ['T', 'X', 'N'] ['D', 'A', 'T', 'E'] '.' (by decide) (by decide)))

/-- C7 (counterexample): the claim as stated is false: `"["` and `"[[]"`
differ only by the appended bracketed suffix `"[]"`, yet they normalize
differently — the leftmost non-greedy match pairs the header's own unclosed
`[` with the suffix's `]`, deleting `"[[" ++ "]"` entirely, while `"["`
alone is left untouched. -/
theorem c7_counterexample :
    ("[[]" : String) = "[" ++ "[]" ∧ clean_column_name "[[]" ≠ clean_column_name "[" := by
  constructor
  · decide
  · decide
